import Mathlib

/-!
Verification of the preprocessing pipeline and architecture shape contract of
the traffic-sign classification script (src/Traffic_Signs_Classification.py).

The script operates on image batches: each split holds a `features` array of
shape [N, H, W, C] and a `labels` array of shape [N].  We embed an image as a
list of rows, each row a list of pixels, each pixel a list of channel values.
Channel values are rationals, modelling exact real arithmetic on the numeric
values the script manipulates.

The executable lines embedded here are:
  line 96:  X_train, y_train = shuffle(X_train, y_train)
  line 99:  X_train_gray = np.sum(X_train / 3, axis = 3, keepdims = True)
  line 112: X_train_gray_norm = (X_train_gray - 128) / 128
together with the analogous lines for the validation and test splits
(lines 103, 107, 116, 119), which are NOT shuffled.

The network architecture (stages 1 to 11) and the error taxonomy
(ShapeMismatch, DimensionError, ArchitectureMismatch) appear only in the
module docstrings and in the specification, not as executable source; the
corresponding definitions below are modelled from the spec and say so in
their doc comments.
-/

namespace TrafficSigns

/-- An image: rows of pixels, each pixel a list of channel values. -/
abbrev Image := List (List (List ℚ))

/-- Per-pixel grayscale value, from line 99 of the script:
`np.sum(X_train / 3, axis = 3, keepdims = True)` divides each channel value
by 3 and then sums along the channel axis. -/
def grayValue (px : List ℚ) : ℚ := (px.map (fun c => c / 3)).sum

/-- Per-pixel grayscale result with the channel axis kept (keepdims = True):
a single-element channel list. -/
def grayPixel (px : List ℚ) : List ℚ := [grayValue px]

/-- Grayscale conversion of a whole image (line 99 applied imagewise):
pointwise over rows and pixels, no spatial mixing. -/
def to_grayscale (img : Image) : Image := img.map (fun row => row.map grayPixel)

/-- Normalization of one value, from line 112 of the script:
`(X_train_gray - 128) / 128`. -/
def normalize (v : ℚ) : ℚ := (v - 128) / 128

/-- Normalization applied pointwise to a whole image. -/
def normalizeImage (img : Image) : Image :=
  img.map (fun row => row.map (fun px => px.map normalize))

/-- Grayscale conversion followed by normalization, the per-image transform
the script applies to every split (lines 99 and 112 and their analogues). -/
def pipelineImage (img : Image) : Image := normalizeImage (to_grayscale img)

/-- Channel list of the pixel at row i, column j, when both indices are in
range. -/
def pixelAt (img : Image) (i j : ℕ) : Option (List ℚ) :=
  (img[i]?).bind (fun row => row[j]?)

/-- Embedding of line 96, `X_train, y_train = shuffle(X_train, y_train)`:
the sklearn shuffle draws one random permutation and reindexes both arrays
by it in a single step.  The drawn permutation is abstracted as an explicit
argument; a length-n array is a function on Fin n, which makes the
equal-length precondition structural. -/
def shuffleBatch {α β : Type} {n : ℕ} (σ : Equiv.Perm (Fin n))
    (X : Fin n → α) (y : Fin n → β) : (Fin n → α) × (Fin n → β) :=
  (fun i => X (σ i), fun i => y (σ i))

/-- Multiset of (image, label) pairs of a batch. -/
def batchPairs {α β : Type} {n : ℕ} (X : Fin n → α) (y : Fin n → β) :
    Multiset (α × β) :=
  Finset.univ.val.map (fun i => (X i, y i))

/-- Multiset of the labels of a batch. -/
def labelMultiset {β : Type} {n : ℕ} (y : Fin n → β) : Multiset β :=
  Finset.univ.val.map y

/-- Embedding of the whole preprocessing section (lines 96 to 120): the
training split is shuffled (line 96) and then grayscaled and normalized;
the validation and test splits are grayscaled and normalized in place, with
no shuffle and with their label arrays untouched. -/
def scriptOutputs {nt nv ns : ℕ} (σ : Equiv.Perm (Fin nt))
    (Xtr : Fin nt → Image) (ytr : Fin nt → ℕ)
    (Xv : Fin nv → Image) (yv : Fin nv → ℕ)
    (Xte : Fin ns → Image) (yte : Fin ns → ℕ) :
    ((Fin nt → Image) × (Fin nt → ℕ)) ×
    ((Fin nv → Image) × (Fin nv → ℕ)) ×
    ((Fin ns → Image) × (Fin ns → ℕ)) :=
  let tr := shuffleBatch σ Xtr ytr
  ((fun i => pipelineImage (tr.1 i), tr.2),
   (fun i => pipelineImage (Xv i), yv),
   (fun i => pipelineImage (Xte i), yte))

/-- Shape of the tensor flowing between network stages: a height-width-depth
tensor or a flat vector. -/
inductive Shape
  | t3 (h w c : ℕ)
  | vec (len : ℕ)
deriving DecidableEq

/-- Modelled from the spec: the convolution shape rule of section 4.2 for a
stage with no padding and stride s, output_dim = floor((input_dim -
kernel_dim) / s) + 1.  The architecture is never built in the source; the
module docstrings state the same arithmetic for the stride-1 stages. -/
def convOut (input kernel stride : ℕ) : ℕ := (input - kernel) / stride + 1

/-- Modelled from the spec: one stage of the fixed architecture, carrying
only its structural parameters.  No filter or bias values appear, so shape
propagation is independent of weight values by construction. -/
inductive StageOp
  | conv (filters kernel stride : ℕ)
  | relu
  | pool (factor : ℕ)
  | flatten
  | dense (nodes : ℕ)
  | output (nodes : ℕ)
deriving DecidableEq

/-- Modelled from the spec: the shape each stage kind produces from its
input shape.  Convolution applies `convOut` to both spatial dimensions and
sets the depth to the filter count; activation preserves shape; pooling
divides both spatial dimensions by the factor; flatten multiplies the
dimensions out; dense and output stages produce their node count. -/
def applyStage : Shape → StageOp → Shape
  | Shape.t3 h w _, StageOp.conv f k s => Shape.t3 (convOut h k s) (convOut w k s) f
  | sh, StageOp.relu => sh
  | Shape.t3 h w c, StageOp.pool f => Shape.t3 (h / f) (w / f) c
  | Shape.t3 h w c, StageOp.flatten => Shape.vec (h * w * c)
  | _, StageOp.dense n => Shape.vec n
  | _, StageOp.output n => Shape.vec n
  | sh, _ => sh

/-- Number of traffic-sign classes. -/
def classes : ℕ := 43

/-- Modelled from the spec: stages 1 to 11 of the fixed architecture of
section 4.2 (convolution, activation, pooling, twice; flatten; dense 120,
dense 80, dense 43; output projection to `classes` nodes). -/
def lenetStages : List StageOp :=
  [StageOp.conv 6 5 1, StageOp.relu, StageOp.pool 2,
   StageOp.conv 16 5 1, StageOp.relu, StageOp.pool 2,
   StageOp.flatten, StageOp.dense 120, StageOp.dense 80, StageOp.dense 43,
   StageOp.output classes]

/-- Shape of a preprocessed input image. -/
def inputShape : Shape := Shape.t3 32 32 1

/-- Output shape of every stage, in order, obtained by folding the shape
rule over the stage list starting from the input shape. -/
def stageOutputs : List Shape := (List.scanl applyStage inputShape lenetStages).tail

/-- Modelled from the spec: one stage record of the construction-time
contract, its declared input shape and declared output shape. -/
structure LayerSpec where
  inShape : Shape
  outShape : Shape
deriving DecidableEq

/-- Modelled from the spec: the construction-time error of section 7. -/
inductive ArchError
  | architectureMismatch
deriving DecidableEq

/-- Checks that every declared input shape equals the declared output shape
of the stage before it. -/
def chainOk : List LayerSpec → Bool
  | a :: b :: rest => decide (a.outShape = b.inShape) && chainOk (b :: rest)
  | _ => true

/-- Modelled from the spec: network construction validates the declared
stage chain before any image is processed and fails fast with
`ArchitectureMismatch` on any deviation; no forward evaluation happens
during construction. -/
def buildNetwork (stages : List LayerSpec) : Except ArchError (List LayerSpec) :=
  if chainOk stages then Except.ok stages
  else Except.error ArchError.architectureMismatch

/-- Modelled from the spec: the error taxonomy of preprocessing failures of
section 7. -/
inductive PreprocessError
  | shapeMismatch
  | dimensionError
deriving DecidableEq

/-- Predicate: every pixel of the image has exactly 3 channel values. -/
def imageRGB (img : Image) : Bool :=
  img.all (fun row => row.all (fun px => px.length == 3))

/-- Modelled from the spec: the `preprocess` orchestrator of section 4.1,
which the script runs only as top-level statements with no checks.  It
fails with `ShapeMismatch` when the feature and label counts disagree,
fails with `DimensionError` when some image does not have exactly 3
channels before grayscale conversion, and otherwise returns the grayscaled,
normalized batch.  The optional shuffle step is the separate `shuffleBatch`
and commutes with the pointwise transform, so it is omitted here. -/
def preprocess (features : List Image) (labels : List ℕ) :
    Except PreprocessError (List Image × List ℕ) :=
  if features.length = labels.length then
    if features.all imageRGB then
      Except.ok (features.map pipelineImage, labels)
    else Except.error PreprocessError.dimensionError
  else Except.error PreprocessError.shapeMismatch

/-! Helper lemmas. -/

/-- A list of length 3 is a three-element list. -/
theorem length_three_eq (px : List ℚ) (h : px.length = 3) :
    ∃ r g b, px = [r, g, b] := by
  cases px with
  | nil => simp at h
  | cons r t1 =>
    cases t1 with
    | nil => simp at h
    | cons g t2 =>
      cases t2 with
      | nil => simp at h
      | cons b t3 =>
        cases t3 with
        | nil => exact ⟨r, g, b, rfl⟩
        | cons d t4 => simp at h

/-- Reindexing by a permutation leaves the multiset of values over the full
index set unchanged. -/
theorem map_univ_comp_perm {γ : Type} {n : ℕ} (σ : Equiv.Perm (Fin n))
    (g : Fin n → γ) :
    Multiset.map (fun i => g (σ i)) Finset.univ.val =
      Multiset.map g Finset.univ.val := by
  have h1 : Multiset.map (fun i => g (σ i)) Finset.univ.val =
      Multiset.map g (Multiset.map (fun i => σ i) Finset.univ.val) := by
    rw [Multiset.map_map]
    rfl
  rw [h1, Multiset.map_univ_val_equiv]

/-- Prepending an element to a chain that already has a mismatch cannot make
the check succeed. -/
theorem chainOk_cons_false (x : LayerSpec) (l : List LayerSpec)
    (hl : chainOk l = false) : chainOk (x :: l) = false := by
  cases l with
  | nil => simp [chainOk] at hl
  | cons y ys =>
    rw [chainOk, hl]
    simp

/-- A mismatch between two consecutive stages anywhere in the chain makes
the check fail. -/
theorem chainOk_mismatch (pre post : List LayerSpec) (a b : LayerSpec)
    (h : a.outShape ≠ b.inShape) :
    chainOk (pre ++ a :: b :: post) = false := by
  induction pre with
  | nil =>
    rw [List.nil_append, chainOk]
    simp [h]
  | cons p ps ih =>
    rw [List.cons_append]
    exact chainOk_cons_false p _ ih

/-! Claim theorems. -/

/-- Claim C1: on an image whose pixels all have exactly 3 channel values,
`to_grayscale` preserves the height, preserves the width of every row,
produces channel depth 1 at every pixel, and the single output value at each
location is the arithmetic mean (R + G + B) / 3 of the three input channel
values there; summing the channels each divided by 3, as the code computes,
equals that mean exactly. -/
theorem to_grayscale_mean (img : Image)
    (h3 : ∀ row ∈ img, ∀ px ∈ row, px.length = 3) :
    (to_grayscale img).length = img.length
    ∧ (∀ (i : ℕ) (row : List (List ℚ)), img[i]? = some row →
        (to_grayscale img)[i]? = some (row.map grayPixel)
        ∧ (row.map grayPixel).length = row.length)
    ∧ (∀ px : List ℚ, (grayPixel px).length = 1)
    ∧ (∀ (i j : ℕ) (px : List ℚ), pixelAt img i j = some px →
        pixelAt (to_grayscale img) i j =
          some [(px.getD 0 0 + px.getD 1 0 + px.getD 2 0) / 3]) := by
  refine ⟨by simp [to_grayscale], ?_, fun px => rfl, ?_⟩
  · intro i row hrow
    constructor
    · rw [to_grayscale, List.getElem?_map, hrow]
      rfl
    · simp
  · intro i j px hpx
    rw [pixelAt] at hpx
    cases hrow : img[i]? with
    | none => rw [hrow] at hpx; simp at hpx
    | some row =>
      rw [hrow] at hpx
      simp only [Option.some_bind] at hpx
      have hpxmem : px ∈ row := List.getElem?_mem hpx
      have hrowmem : row ∈ img := List.getElem?_mem hrow
      have hlen : px.length = 3 := h3 row hrowmem px hpxmem
      obtain ⟨r, g, b, rfl⟩ := length_three_eq px hlen
      rw [pixelAt, to_grayscale, List.getElem?_map, hrow]
      simp only [Option.map_some', Option.some_bind, List.getElem?_map, hpx]
      have hval : grayPixel [r, g, b] = [(r + g + b) / 3] := by
        rw [grayPixel, grayValue]
        simp only [List.map_cons, List.map_nil, List.sum_cons, List.sum_nil]
        norm_num
        ring
      rw [hval]
      simp [List.getD]

/-- Claim C1 witness: on the one-pixel image with channels [1, 2, 3] the
grayscale value is the mean 2. -/
theorem to_grayscale_mean_concrete :
    (∀ row ∈ ([[[1, 2, 3]]] : Image), ∀ px ∈ row, px.length = 3)
    ∧ pixelAt (to_grayscale [[[1, 2, 3]]]) 0 0 = some [2] := by
  refine ⟨by decide, ?_⟩
  have h := (to_grayscale_mean [[[1, 2, 3]]] (by decide)).2.2.2 0 0 [1, 2, 3] rfl
  rw [h]
  norm_num [List.getD]

/-- Claim C2: `normalize` maps v to (v - 128) / 128; for v in [0, 255] the
result lies in [-1, 1], with normalize 0 = -1, normalize 128 = 0 and
normalize 255 = 127 / 128. -/
theorem normalize_bounds (v : ℚ) (h0 : 0 ≤ v) (h255 : v ≤ 255) :
    (normalize v = (v - 128) / 128)
    ∧ (-1 ≤ normalize v ∧ normalize v ≤ 1)
    ∧ normalize 0 = -1 ∧ normalize 128 = 0 ∧ normalize 255 = 127 / 128 := by
  refine ⟨rfl, ⟨?_, ?_⟩, by norm_num [normalize], by norm_num [normalize],
    by norm_num [normalize]⟩
  · rw [normalize, le_div_iff₀ (by norm_num : (0:ℚ) < 128)]
    linarith
  · rw [normalize, div_le_iff₀ (by norm_num : (0:ℚ) < 128)]
    linarith

/-- Claim C2 witness at v = 7. -/
theorem normalize_bounds_at_seven :
    (0:ℚ) ≤ 7 ∧ (7:ℚ) ≤ 255 ∧ (-1 ≤ normalize 7 ∧ normalize 7 ≤ 1) :=
  ⟨by norm_num, by norm_num,
    (normalize_bounds 7 (by norm_num) (by norm_num)).2.1⟩

/-- Claim C3: shuffling reindexes features and labels by the same
permutation in one step, so every output position carries an original
(image, label) pair intact, and the multiset of (image, label) pairs is
unchanged. -/
theorem shuffle_preserves_pairs {α β : Type} {n : ℕ}
    (σ : Equiv.Perm (Fin n)) (X : Fin n → α) (y : Fin n → β) :
    batchPairs (shuffleBatch σ X y).1 (shuffleBatch σ X y).2 = batchPairs X y
    ∧ ∀ i : Fin n, (shuffleBatch σ X y).1 i = X (σ i)
        ∧ (shuffleBatch σ X y).2 i = y (σ i) := by
  refine ⟨?_, fun i => ⟨rfl, rfl⟩⟩
  rw [batchPairs, batchPairs]
  exact map_univ_comp_perm σ (fun i => (X i, y i))

/-- Claim C4: folding the no-padding convolution shape rule over the fixed
stage list from a 32 x 32 x 1 input reproduces exactly the tabulated output
shape of every stage, ending in a vector of length `classes` = 43.  The
stage list carries no filter or bias values, so the shapes are independent
of them by construction. -/
theorem lenet_shape_propagation :
    stageOutputs =
      [Shape.t3 28 28 6, Shape.t3 28 28 6, Shape.t3 14 14 6,
       Shape.t3 10 10 16, Shape.t3 10 10 16, Shape.t3 5 5 16,
       Shape.vec 400, Shape.vec 120, Shape.vec 80, Shape.vec 43,
       Shape.vec classes]
    ∧ convOut 32 5 1 = 28 ∧ convOut 14 5 1 = 10 := by
  refine ⟨?_, rfl, rfl⟩
  rfl

/-- Claim C5: the preprocessing orchestrator fails with ShapeMismatch
whenever the feature and label counts disagree, fails with DimensionError
whenever some image lacks exactly 3 channels (counts agreeing), and in every
failure case returns no batch at all. -/
theorem preprocess_failures (features : List Image) (labels : List ℕ) :
    (features.length ≠ labels.length →
      preprocess features labels = Except.error PreprocessError.shapeMismatch)
    ∧ (features.length = labels.length →
        (∃ img ∈ features, imageRGB img = false) →
        preprocess features labels = Except.error PreprocessError.dimensionError)
    ∧ (∀ e, preprocess features labels = Except.error e →
        ∀ out, preprocess features labels ≠ Except.ok out) := by
  refine ⟨?_, ?_, ?_⟩
  · intro hne
    rw [preprocess, if_neg hne]
  · intro heq hbad
    have hall : features.all imageRGB = false := by
      rw [List.all_eq_false]
      obtain ⟨img, hmem, hfalse⟩ := hbad
      exact ⟨img, hmem, by simp [hfalse]⟩
    rw [preprocess, if_pos heq, hall]
    simp
  · intro e he out
    rw [he]
    intro hbad
    exact Except.noConfusion hbad

/-- Claim C5 witness: a count mismatch yields ShapeMismatch, and a 2-channel
image with matching counts yields DimensionError. -/
theorem preprocess_failures_concrete :
    preprocess ([] : List Image) [0] = Except.error PreprocessError.shapeMismatch
    ∧ preprocess [[[[1, 2]]]] [0] = Except.error PreprocessError.dimensionError :=
  ⟨(preprocess_failures [] [0]).1 (by decide),
   (preprocess_failures [[[[1, 2]]]] [0]).2.1 (by decide)
     ⟨[[[1, 2]]], by simp, by decide⟩⟩

/-- Claim C6: after preprocessing, the validation and test outputs keep
their input order exactly, with labels untouched; the training labels are
exactly the input labels reindexed by the shuffle permutation, so their
multiset of values is unchanged. -/
theorem shuffle_only_training {nt nv ns : ℕ} (σ : Equiv.Perm (Fin nt))
    (Xtr : Fin nt → Image) (ytr : Fin nt → ℕ)
    (Xv : Fin nv → Image) (yv : Fin nv → ℕ)
    (Xte : Fin ns → Image) (yte : Fin ns → ℕ) :
    ((scriptOutputs σ Xtr ytr Xv yv Xte yte).2.1.1 =
        fun i => pipelineImage (Xv i))
    ∧ (scriptOutputs σ Xtr ytr Xv yv Xte yte).2.1.2 = yv
    ∧ ((scriptOutputs σ Xtr ytr Xv yv Xte yte).2.2.1 =
        fun i => pipelineImage (Xte i))
    ∧ (scriptOutputs σ Xtr ytr Xv yv Xte yte).2.2.2 = yte
    ∧ (∀ i, (scriptOutputs σ Xtr ytr Xv yv Xte yte).1.2 i = ytr (σ i))
    ∧ labelMultiset (scriptOutputs σ Xtr ytr Xv yv Xte yte).1.2 =
        labelMultiset ytr := by
  refine ⟨rfl, rfl, rfl, rfl, fun i => rfl, ?_⟩
  rw [labelMultiset, labelMultiset]
  exact map_univ_comp_perm σ ytr

/-- Claim C7: constructing the network from a stage chain in which some
stage's declared input shape differs from the previous stage's declared
output shape fails with ArchitectureMismatch at construction time; no image
is processed because construction returns no network. -/
theorem buildNetwork_mismatch (pre post : List LayerSpec) (a b : LayerSpec)
    (h : a.outShape ≠ b.inShape) :
    buildNetwork (pre ++ a :: b :: post) =
      Except.error ArchError.architectureMismatch := by
  rw [buildNetwork, chainOk_mismatch pre post a b h]
  simp

/-- Claim C7 witness: the tabulated chain with stage 4 mutated to declare a
10 x 10 x 6 input instead of 14 x 14 x 6 is rejected. -/
theorem buildNetwork_mismatch_concrete :
    buildNetwork
      ([⟨Shape.t3 32 32 1, Shape.t3 28 28 6⟩,
        ⟨Shape.t3 28 28 6, Shape.t3 28 28 6⟩] ++
        ⟨Shape.t3 28 28 6, Shape.t3 14 14 6⟩ ::
        ⟨Shape.t3 10 10 6, Shape.t3 10 10 16⟩ ::
        [⟨Shape.t3 10 10 16, Shape.t3 10 10 16⟩,
         ⟨Shape.t3 10 10 16, Shape.t3 5 5 16⟩,
         ⟨Shape.t3 5 5 16, Shape.vec 400⟩,
         ⟨Shape.vec 400, Shape.vec 120⟩,
         ⟨Shape.vec 120, Shape.vec 80⟩,
         ⟨Shape.vec 80, Shape.vec 43⟩,
         ⟨Shape.vec 43, Shape.vec classes⟩]) =
      Except.error ArchError.architectureMismatch :=
  buildNetwork_mismatch _ _ _ _ (by decide)

/-- Claim C8: normalize is not idempotent: v = 0 lies in [0, 255] and
normalize (normalize 0) differs from normalize 0. -/
theorem normalize_not_idempotent :
    ∃ v : ℚ, 0 ≤ v ∧ v ≤ 255 ∧ normalize (normalize v) ≠ normalize v := by
  refine ⟨0, by norm_num, by norm_num, ?_⟩
  norm_num [normalize]

/-- Claim C9: a 3-channel pixel with channel values in [0, 255] has its
grayscale value in [0, 255], so the composed transform lands in
[-1, 127/128], a strict subset of [-1, 1]. -/
theorem grayscale_normalize_range (px : List ℚ) (h3 : px.length = 3)
    (hb : ∀ c ∈ px, 0 ≤ c ∧ c ≤ 255) :
    (0 ≤ grayValue px ∧ grayValue px ≤ 255)
    ∧ (-1 ≤ normalize (grayValue px)
        ∧ normalize (grayValue px) ≤ 127 / 128)
    ∧ (127:ℚ) / 128 < 1 := by
  obtain ⟨r, g, b, rfl⟩ := length_three_eq px h3
  have hr := hb r (by simp)
  have hg := hb g (by simp)
  have hbb := hb b (by simp)
  have hval : grayValue [r, g, b] = r / 3 + g / 3 + b / 3 := by
    rw [grayValue]
    simp only [List.map_cons, List.map_nil, List.sum_cons, List.sum_nil]
    ring
  rw [hval]
  refine ⟨⟨by linarith [hr.1, hg.1, hbb.1], by linarith [hr.2, hg.2, hbb.2]⟩,
    ⟨?_, ?_⟩, by norm_num⟩
  · rw [normalize, le_div_iff₀ (by norm_num : (0:ℚ) < 128)]
    have := hr.1
    have := hg.1
    have := hbb.1
    linarith
  · rw [normalize, div_le_div_iff₀ (by norm_num : (0:ℚ) < 128)
      (by norm_num : (0:ℚ) < 128)]
    have := hr.2
    have := hg.2
    have := hbb.2
    linarith

/-- Claim C9 witness at the pixel [0, 128, 255]. -/
theorem grayscale_normalize_range_concrete :
    (-1 ≤ normalize (grayValue [0, 128, 255])
      ∧ normalize (grayValue [0, 128, 255]) ≤ 127 / 128) :=
  (grayscale_normalize_range [0, 128, 255] (by decide)
    (by
      intro c hc
      simp only [List.mem_cons, List.not_mem_nil, or_false] at hc
      rcases hc with rfl | rfl | rfl <;> norm_num)).2.1

/-- Claim C10: normalize is strictly monotone, hence injective: relative
brightness ordering is preserved. -/
theorem normalize_strictMono : StrictMono normalize ∧ Function.Injective normalize := by
  have hm : StrictMono normalize := by
    intro a b hab
    rw [normalize, normalize,
      div_lt_div_iff₀ (by norm_num : (0:ℚ) < 128) (by norm_num : (0:ℚ) < 128)]
    linarith
  exact ⟨hm, hm.injective⟩

/-- Claim C10 witness: applied at 0 < 1. -/
theorem normalize_strictMono_concrete : normalize 0 < normalize 1 :=
  normalize_strictMono.1 (by norm_num : (0:ℚ) < 1)

end TrafficSigns
